import Mathlib

/-!
Shallow embedding of the Go board recognition core: the recognition
session class `GrBoard` (gr/board.py) and the region-mask geometry
(`is_on`, `is_on_w`, `ImageMask` of gr/ui_extra.py).  External
collaborators (image codec, perspective warp, detector, resizer) appear
as explicit inputs carrying their outputs for the call at hand.
-/

namespace GrSpec

/-- Pixel image buffer, modelled as rows of pixel values.  Session logic
copies, replaces and compares images but never inspects pixels. -/
abbrev Image := List (List ℕ)

/-- Stone record: the detector's five-element array
(pixel-x `GR_X`, pixel-y `GR_Y`, grid-column `GR_A`, grid-row `GR_B`,
pixel-radius `GR_R`). -/
structure Stone where
  x : ℤ
  y : ℤ
  a : ℤ
  b : ℤ
  r : ℤ
deriving DecidableEq, Repr

/-- Value stored under one recognition-parameter key. -/
inductive ParamVal where
  | int (n : ℤ)
  | num (q : ℚ)
  | rect (r : List (ℚ × ℚ))
deriving DecidableEq, Repr

/-- Modelled from the spec: `GrParams` (gr/params.py, not under src/) is a
key/value mapping of named recognition options; a key that is absent and a
key stored as `None` both read back as absent. -/
def Params : Type := String → Option ParamVal

/-- Store a value (or absence) under a key. -/
def Params.set (p : Params) (k : String) (v : Option ParamVal) : Params :=
  fun q => if q = k then v else p q

/-- Modelled from the spec: `GrParams.assign` (gr/params.py, not under
src/) merges the given options into the mapping, the incoming value
winning on keys present in both. -/
def Params.assign (p q : Params) : Params :=
  fun k =>
    match q k with
    | some v => some v
    | none => p k

/-- Result bundle of one processing run (the `_res` dictionary).  Stone
lists may be absent as returned by the raw detector; `process` normalizes
them to empty arrays. -/
structure GrResult where
  stonesB : Option (List Stone)
  stonesW : Option (List Stone)
  spacing : ℚ × ℚ
  edges : (ℚ × ℚ) × (ℚ × ℚ)
  boardSize : ℤ
deriving DecidableEq, Repr

/-- Recognition session state: the fields set up in `GrBoard.__init__`. -/
structure GrBoard where
  params : Params
  res : Option GrResult
  img : Option Image
  imgFile : Option String
  srcImg : Option Image
  srcImgFile : Option String
  genBoard : Bool

/-- Default board size (`DEF_BOARD_SIZE` of gr/grdef.py). -/
def DEF_BOARD_SIZE : ℤ := 19

/-- Property `board_size`: the recognized size when a result exists, else
the `BOARD_SIZE` parameter, else the default. -/
def GrBoard.boardSize (bd : GrBoard) : ℤ :=
  match bd.res with
  | none =>
    match bd.params "BOARD_SIZE" with
    | some (.int n) => n
    | _ => DEF_BOARD_SIZE
  | some r => r.boardSize

/-- Method `process`: bypass (clear the result) when there is no image or
the board is generated; otherwise store the detector's output — passed in
as `detected`, the value `process_img(image, params)` returns — with
absent stone lists normalized to empty ones. -/
def GrBoard.process (bd : GrBoard) (detected : Option GrResult) : GrBoard :=
  if bd.img = none ∨ bd.genBoard then { bd with res := none }
  else
    match detected with
    | none => { bd with res := none }
    | some r =>
        { bd with
          res := some
            { r with
              stonesB := some (r.stonesB.getD [])
              stonesW := some (r.stonesW.getD []) } }

/-- Python `int()` applied to a rational: truncation toward zero. -/
def pyInt (q : ℚ) : ℤ := q.num.tdiv q.den

/-- Per-stone step of `resize_board.resize_stones`: pixel x and y scaled by
the per-axis factors, radius by the larger factor, each truncated back to
an integer; grid coordinates untouched. -/
def resizeStone (scale : ℚ × ℚ) (st : Stone) : Stone :=
  { st with
    x := pyInt ((st.x : ℚ) * scale.1)
    y := pyInt ((st.y : ℚ) * scale.2)
    r := pyInt ((st.r : ℚ) * max scale.1 scale.2) }

/-- Inner helper `resize_stones` of `resize_board`. -/
def resizeStones (stones : List Stone) (scale : ℚ × ℚ) : List Stone :=
  stones.map (resizeStone scale)

/-- Method `resize_board`: the external `resize2` call is represented by
its outputs (the resized image and the actual per-axis scale).  The image
is replaced first; the stored result, when present, is then rescaled.
Iterating an absent stone list raises in Python, modelled as `none`. -/
def GrBoard.resizeBoard (bd : GrBoard) (newImg : Option Image) (scale : ℚ × ℚ) :
    Option GrBoard :=
  match bd.res with
  | none => some { bd with img := newImg }
  | some r =>
    match r.stonesB, r.stonesW with
    | some bs, some ws =>
        some
          { bd with
            img := newImg
            res := some
              { r with
                stonesB := some (resizeStones bs scale)
                stonesW := some (resizeStones ws scale)
                spacing := (r.spacing.1 * scale.1, r.spacing.2 * scale.2)
                edges := ((r.edges.1.1 * scale.1, r.edges.1.2 * scale.2),
                          (r.edges.2.1 * scale.1, r.edges.2.2 * scale.2)) } }
    | _, _ => none

/-- Method `transform_image`: the perspective warp `four_point_transform`
is external, its output is passed as `warped`.  No-op unless the rectangle
has exactly four points. -/
def GrBoard.transformImage (bd : GrBoard) (rect : Option (List (ℚ × ℚ)))
    (warped : Image) : GrBoard :=
  match rect with
  | none => bd
  | some rc =>
    if rc.length = 4 then
      { bd with
        img := some warped
        params := bd.params.set "TRANSFORM" (some (.rect rc)) }
    else bd

/-- Method `reset_image`: revert the image to the original and clear the
geometry parameters. -/
def GrBoard.resetImage (bd : GrBoard) : GrBoard :=
  { bd with
    img := bd.srcImg
    params := ((bd.params.set "TRANSFORM" none).set "BOARD_EDGES" none).set
      "BOARD_SIZE" none }

/-- Method `load_image`: the external image decode (`cv2.imread`) is
represented by its outcome `decoded`; the sibling parameters file by
`paramsFile` (`none` when no such file exists); the warp and detector
outputs by `warped` and `detected`.  On decode failure the call raises
before any state is touched. -/
def GrBoard.loadImage (bd : GrBoard) (filename : String) (decoded : Option Image)
    (fWithParams : Bool) (paramsFile : Option Params) (warped : Image)
    (fProcess : Bool) (detected : Option GrResult) :
    GrBoard × Except String Bool :=
  match decoded with
  | none => (bd, .error ("Image file not found " ++ filename))
  | some img =>
    let bd1 : GrBoard :=
      { bd with
        genBoard := false
        imgFile := some filename
        srcImgFile := some filename
        img := some img
        srcImg := some img
        res := none }
    let loaded : GrBoard × Bool :=
      if fWithParams then
        match paramsFile with
        | some p => ({ bd1 with params := bd1.params.assign p }, true)
        | none => (bd1, false)
      else (bd1, false)
    let bd2 :=
      match loaded.1.params "TRANSFORM" with
      | some (.rect rc) => loaded.1.transformImage (some rc) warped
      | _ => loaded.1
    let bd3 := if fProcess then bd2.process detected else bd2
    (bd3, .ok loaded.2)

/-- Setter of the `params` property: assigns the options and clears the
generated-board flag. -/
def GrBoard.setParams (bd : GrBoard) (p : Params) : GrBoard :=
  { bd with params := bd.params.assign p, genBoard := false }

/-- Property `black_stones`: the stored black stone list, absent without a
result. -/
def GrBoard.blackStones (bd : GrBoard) : Option (List Stone) :=
  match bd.res with
  | none => none
  | some r => r.stonesB

/-- Property `white_stones`: the stored white stone list, absent without a
result. -/
def GrBoard.whiteStones (bd : GrBoard) : Option (List Stone) :=
  match bd.res with
  | none => none
  | some r => r.stonesW

/-- Property `all_stones`: every stone extended with its color tag, black
stones first. -/
def GrBoard.allStones (bd : GrBoard) : List (Stone × Char) :=
  (match bd.blackStones with
   | none => []
   | some l => l.map fun s => (s, 'B')) ++
  (match bd.whiteStones with
   | none => []
   | some l => l.map fun s => (s, 'W'))

/-- Modelled from the spec: `find_position` (gr/gr.py, not under src/)
returns the stone at the given grid coordinate, or absent when no stone
matches. -/
def find_position (a b : ℤ) (stones : List Stone) : Option Stone :=
  stones.find? fun st => st.a == a && st.b == b

/-- Modelled from the spec: `find_coord` (gr/gr.py, not under src/)
returns a stone whose detection radius covers the pixel coordinate, or
absent. -/
def find_coord (x y : ℚ) (stones : List Stone) : Option Stone :=
  stones.find? fun st =>
    decide ((x - st.x) ^ 2 + (y - st.y) ^ 2 ≤ (st.r : ℚ) ^ 2)

/-- Inner helper `_find` of `find_stone`: dispatch on which of the three
query forms is given.  A label is its first character together with the
numeric value of the remaining characters. -/
def innerFind (c : Option (ℚ × ℚ)) (p : Option (ℤ × ℤ))
    (s : Option (Char × ℤ)) (stones : List Stone) : Option Stone :=
  match c with
  | some cc => find_coord cc.1 cc.2 stones
  | none =>
    match p with
    | some pp => find_position pp.1 pp.2 stones
    | none =>
      match s with
      | some ss => find_position ((ss.1.toUpper.toNat : ℤ) - 65 + 1) ss.2 stones
      | none => none

/-- Method `find_stone`: a color filter restricts the search to that
color's list; otherwise black stones are searched first, then white. -/
def GrBoard.findStone (bd : GrBoard) (c : Option (ℚ × ℚ)) (p : Option (ℤ × ℤ))
    (s : Option (Char × ℤ)) (bw : Option Char) : Option Stone × Option Char :=
  match bd.res with
  | none => (none, none)
  | some r =>
    match bw with
    | some col =>
      let stones := if col = 'B' then r.stonesB else r.stonesW
      (innerFind c p s (stones.getD []), some col)
    | none =>
      match innerFind c p s (r.stonesB.getD []) with
      | some st => (some st, some 'B')
      | none =>
        match innerFind c p s (r.stonesW.getD []) with
        | some st => (some st, some 'W')
        | none => (none, none)

/-- Numpy expression `stone - 1` on a stone record: subtracts 1 from every
field. -/
def subOneStone (st : Stone) : Stone :=
  { x := st.x - 1, y := st.y - 1, a := st.a - 1, b := st.b - 1, r := st.r - 1 }

/-- Moves written by the `save_sgf` loop: for each index the black stone
then the white stone at that index, when present, each written as
(color, row `GR_B`, column `GR_A`) of the shifted record. -/
def sgfMoves : List Stone → List Stone → List (Char × ℤ × ℤ)
  | [], [] => []
  | [], w :: ws => ('w', (subOneStone w).b, (subOneStone w).a) :: sgfMoves [] ws
  | bst :: bs, [] =>
      ('b', (subOneStone bst).b, (subOneStone bst).a) :: sgfMoves bs []
  | bst :: bs, w :: ws =>
      ('b', (subOneStone bst).b, (subOneStone bst).a) ::
        ('w', (subOneStone w).b, (subOneStone w).a) :: sgfMoves bs ws

/-- Method `save_sgf`: fails when no result is available; otherwise
produces the game header size and the move sequence.  Iterating an absent
stone list raises in Python, modelled as an error value. -/
def GrBoard.saveSgf (bd : GrBoard) : Except String (ℤ × List (Char × ℤ × ℤ)) :=
  match bd.res with
  | none => .error "Recognition results are not available"
  | some r =>
    match r.stonesB, r.stonesW with
    | some bs, some ws => .ok (bd.boardSize, sgfMoves bs ws)
    | _, _ => .error "stone list is not available"

/-- Interleaving of two lists, taking one element of each in turn, the
first list leading; the tail of the longer list follows.  Reference shape
for the move order `save_sgf` writes. -/
def interleave {α : Type} : List α → List α → List α
  | [], l2 => l2
  | a :: l1, [] => a :: interleave l1 []
  | a :: l1, b :: l2 => a :: b :: interleave l1 l2

/-- One post-load image operation, carrying the outputs of the external
image routines it invokes. -/
inductive BoardOp where
  | transform (rect : Option (List (ℚ × ℚ))) (warped : Image)
  | resize (newImg : Option Image) (scale : ℚ × ℚ)

/-- Apply one operation; on the stone-list crash inside `resize_board` the
image assignment has already happened. -/
def GrBoard.applyOp (bd : GrBoard) : BoardOp → GrBoard
  | .transform rect warped => bd.transformImage rect warped
  | .resize newImg scale =>
      (bd.resizeBoard newImg scale).getD { bd with img := newImg }

/-- Apply a sequence of transform/resize operations. -/
def GrBoard.applyOps (bd : GrBoard) (ops : List BoardOp) : GrBoard :=
  ops.foldl GrBoard.applyOp bd

/-- Helper `collinear` of `is_on`: cross-product equality. -/
def collinear (a b c : ℚ × ℚ) : Bool :=
  (b.1 - a.1) * (c.2 - a.2) == (c.1 - a.1) * (b.2 - a.2)

/-- Helper `within` of `is_on`: betweenness, inclusive, either order. -/
def within (p q r : ℚ) : Bool :=
  decide ((p ≤ q ∧ q ≤ r) ∨ (r ≤ q ∧ q ≤ p))

/-- Function `is_on`: point c lies on the segment from a to b. -/
def is_on (a b c : ℚ × ℚ) : Bool :=
  collinear a b c &&
    (if a.1 ≠ b.1 then within a.1 c.1 b.1 else within a.2 c.2 b.2)

/-- Function `is_on_w`: windowed variant of `is_on`, scanning candidate
points offset from the cursor by (i - 1, j - 1) for i, j below
3 times delta. -/
def is_on_w (a b c : ℚ × ℚ) (delta : ℕ) : Bool :=
  (List.range (delta * 3)).any fun (i : ℕ) =>
    (List.range (delta * 3)).any fun (j : ℕ) =>
      is_on a b (c.1 + (i : ℚ) - 1, c.2 + (j : ℚ) - 1)

/-- Candidate window scanned by `is_on_w`, as a list of points. -/
def windowPoints (c : ℚ × ℚ) (delta : ℕ) : List (ℚ × ℚ) :=
  (List.range (delta * 3)).flatMap fun (i : ℕ) =>
    (List.range (delta * 3)).map fun (j : ℕ) =>
      (c.1 + (i : ℚ) - 1, c.2 + (j : ℚ) - 1)

/-- Region mask state (`ImageMask` of gr/ui_extra.py).  `imageShape` is
(height, width); the mask bounds are [left, top, right, bottom] in canvas
coordinates; `maskRect` records whether the rectangle is currently drawn;
`dragSide` is the latched edge (0 left, 1 top, 2 right, 3 bottom). -/
structure ImageMask where
  imageShape : ℚ × ℚ
  minDist : ℚ
  mask0 : ℚ
  mask1 : ℚ
  mask2 : ℚ
  mask3 : ℚ
  maskRect : Bool
  dragSide : Option ℕ
deriving DecidableEq, Repr

/-- Method `get_mask_rect_side`: which side of the drawn rectangle the
point is near, tried in the order left, top, right, bottom. -/
def ImageMask.getMaskRectSide (m : ImageMask) (p : ℚ × ℚ) : Option ℕ :=
  if m.maskRect = false then none
  else if is_on_w (m.mask0, m.mask1) (m.mask0, m.mask3) p 1 then some 0
  else if is_on_w (m.mask0, m.mask1) (m.mask2, m.mask1) p 1 then some 1
  else if is_on_w (m.mask2, m.mask1) (m.mask2, m.mask3) p 1 then some 2
  else if is_on_w (m.mask0, m.mask3) (m.mask2, m.mask3) p 1 then some 3
  else none

/-- Method `drag_callback`: latch an edge when none is latched yet, then
update that edge's coordinate from the pointer, clamped against the image
border only. -/
def ImageMask.dragCallback (m : ImageMask) (p : ℚ × ℚ) : ImageMask :=
  let side :=
    match m.dragSide with
    | some s => some s
    | none => m.getMaskRectSide p
  match side with
  | none => m
  | some s =>
    let m1 := { m with dragSide := some s }
    if s = 0 then { m1 with mask0 := max p.1 m.minDist }
    else if s = 1 then { m1 with mask1 := max p.2 m.minDist }
    else if s = 2 then { m1 with mask2 := min p.1 (m.imageShape.2 - m.minDist) }
    else if s = 3 then { m1 with mask3 := min p.2 (m.imageShape.1 - m.minDist) }
    else m1

/-! Theorems. -/

/-- Claim C5: when the image cannot be decoded, `load_image` fails with the
file-not-found error and the session state is returned exactly as it was:
image, source image, file names, generated flag, parameters and result are
all unchanged. -/
theorem loadImage_decode_failure_no_mutation (bd : GrBoard) (filename : String)
    (fWithParams : Bool) (paramsFile : Option Params) (warped : Image)
    (fProcess : Bool) (detected : Option GrResult) :
    bd.loadImage filename none fWithParams paramsFile warped fProcess detected =
      (bd, .error ("Image file not found " ++ filename)) := rfl

/-- Claim C2: `process` clears the result when the image is absent or the
board is generated; otherwise it stores the detector's output with absent
stone lists normalized to empty ones, so a stored result always has both
stone lists present. -/
theorem process_result_normalized (bd : GrBoard) (detected : Option GrResult) :
    ((bd.img = none ∨ bd.genBoard = true) → (bd.process detected).res = none) ∧
    (bd.img ≠ none → bd.genBoard = false →
      (bd.process detected).res =
        detected.map fun r =>
          { r with
            stonesB := some (r.stonesB.getD [])
            stonesW := some (r.stonesW.getD []) }) ∧
    (∀ r, (bd.process detected).res = some r →
      r.stonesB ≠ none ∧ r.stonesW ≠ none) := by
  by_cases h : bd.img = none ∨ bd.genBoard = true
  · refine ⟨fun _ => ?_, fun h1 h2 => ?_, fun r hr => ?_⟩
    · simp [GrBoard.process, h]
    · rcases h with h | h
      · exact absurd h h1
      · exact absurd h (by simp [h2])
    · rw [show (bd.process detected).res = none by simp [GrBoard.process, h]] at hr
      exact absurd hr (by simp)
  · have hi : ¬ (bd.img = none ∨ bd.genBoard = true) := h
    refine ⟨fun hc => absurd hc hi, fun _ _ => ?_, fun r hr => ?_⟩
    · cases detected with
      | none => simp [GrBoard.process, hi]
      | some d => simp [GrBoard.process, hi]
    · cases detected with
      | none => simp [GrBoard.process, hi] at hr
      | some d =>
        rw [show (bd.process (some d)).res = some
            { d with stonesB := some (d.stonesB.getD [])
                     stonesW := some (d.stonesW.getD []) } by
          simp [GrBoard.process, hi]] at hr
        cases hr
        simp

/-- Witness for C2 at concrete sessions: a generated board keeps the
result absent; a loaded board with a detector reporting absent stone
lists stores empty, present lists. -/
theorem process_result_normalized_witness :
    (GrBoard.process ⟨fun _ => none, none, some [], none, none, none, true⟩
      (some ⟨none, none, (1, 1), ((0, 0), (1, 1)), 19⟩)).res = none ∧
    (GrBoard.process ⟨fun _ => none, none, some [], none, none, none, false⟩
        (some ⟨none, none, (1, 1), ((0, 0), (1, 1)), 19⟩)).res =
      some ⟨some [], some [], (1, 1), ((0, 0), (1, 1)), 19⟩ := by
  constructor
  · exact (process_result_normalized _ _).1 (Or.inr rfl)
  · have h := (process_result_normalized
      ⟨fun _ => none, none, some [], none, none, none, false⟩
      (some ⟨none, none, (1, 1), ((0, 0), (1, 1)), 19⟩)).2.1
      (by simp) rfl
    simpa using h

/-- Claim C9: assigning parameters through the setter clears the
generated-board flag, so a later `process` with a loaded image takes the
detection path instead of the generated-board bypass. -/
theorem setParams_clears_generated_flag (bd : GrBoard) (p : Params)
    (raw : GrResult) :
    (bd.setParams p).genBoard = false ∧
    (bd.setParams p).params = bd.params.assign p ∧
    (bd.img ≠ none →
      ((bd.setParams p).process (some raw)).res =
        some { raw with
          stonesB := some (raw.stonesB.getD [])
          stonesW := some (raw.stonesW.getD []) }) := by
  refine ⟨rfl, rfl, fun h => ?_⟩
  have himg : (bd.setParams p).img = bd.img := rfl
  have hgen : (bd.setParams p).genBoard = false := rfl
  have := (process_result_normalized (bd.setParams p) (some raw)).2.1
    (by rw [himg]; exact h) hgen
  simpa using this

/-- Witness for C9: a generated session regains detection after a
parameters assignment. -/
theorem setParams_clears_generated_flag_witness :
    ((GrBoard.setParams
        ⟨fun _ => none, none, some [], none, none, none, true⟩
        (fun _ => none)).process
      (some ⟨none, none, (1, 1), ((0, 0), (1, 1)), 19⟩)).res =
      some ⟨some [], some [], (1, 1), ((0, 0), (1, 1)), 19⟩ := by
  have h := (setParams_clears_generated_flag
    ⟨fun _ => none, none, some [], none, none, none, true⟩ (fun _ => none)
    ⟨none, none, (1, 1), ((0, 0), (1, 1)), 19⟩).2.2 (by simp)
  simpa using h

/-- Claim C10: without a result the combined stone accessor is the empty
list while the per-color accessors are absent; with a result it lists all
black stones tagged with their color first, then all white stones. -/
theorem allStones_empty_not_absent (bd : GrBoard) :
    (bd.res = none →
      bd.allStones = [] ∧ bd.blackStones = none ∧ bd.whiteStones = none) ∧
    (∀ r bs ws, bd.res = some r → r.stonesB = some bs → r.stonesW = some ws →
      bd.allStones =
        bs.map (fun s => (s, 'B')) ++ ws.map fun s => (s, 'W')) := by
  constructor
  · intro h
    refine ⟨?_, ?_, ?_⟩ <;>
      simp [GrBoard.allStones, GrBoard.blackStones, GrBoard.whiteStones, h]
  · intro r bs ws hres hb hw
    simp [GrBoard.allStones, GrBoard.blackStones, GrBoard.whiteStones,
      hres, hb, hw]

/-- Witness for C10 at a concrete session with one stone of each color. -/
theorem allStones_empty_not_absent_witness :
    (GrBoard.allStones ⟨fun _ => none, none, none, none, none, none, true⟩
        = [] ∧
      GrBoard.blackStones ⟨fun _ => none, none, none, none, none, none, true⟩
        = none ∧
      GrBoard.whiteStones ⟨fun _ => none, none, none, none, none, none, true⟩
        = none) ∧
    GrBoard.allStones
        ⟨fun _ => none,
          some ⟨some [⟨1, 2, 3, 4, 5⟩], some [⟨6, 7, 8, 9, 10⟩], (1, 1),
            ((0, 0), (1, 1)), 19⟩,
          some [], none, some [], none, false⟩ =
      [(⟨1, 2, 3, 4, 5⟩, 'B'), (⟨6, 7, 8, 9, 10⟩, 'W')] := by
  constructor
  · exact (allStones_empty_not_absent _).1 rfl
  · have h := (allStones_empty_not_absent
      ⟨fun _ => none,
        some ⟨some [⟨1, 2, 3, 4, 5⟩], some [⟨6, 7, 8, 9, 10⟩], (1, 1),
          ((0, 0), (1, 1)), 19⟩,
        some [], none, some [], none, false⟩).2
      _ _ _ rfl rfl rfl
    simpa using h

/-- Source image and its file name survive any single transform/resize
operation. -/
theorem applyOp_preserves_src (bd : GrBoard) (op : BoardOp) :
    (bd.applyOp op).srcImg = bd.srcImg ∧
    (bd.applyOp op).params "AREA_MASK" = bd.params "AREA_MASK" := by
  cases op with
  | transform rect warped =>
    cases rect with
    | none => exact ⟨rfl, rfl⟩
    | some rc =>
      by_cases h : rc.length = 4
      · constructor
        · simp [GrBoard.applyOp, GrBoard.transformImage, h]
        · simp [GrBoard.applyOp, GrBoard.transformImage, h, Params.set]
      · simp [GrBoard.applyOp, GrBoard.transformImage, h]
  | resize newImg scale =>
    cases hres : bd.res with
    | none => simp [GrBoard.applyOp, GrBoard.resizeBoard, hres]
    | some r =>
      cases hb : r.stonesB with
      | none => simp [GrBoard.applyOp, GrBoard.resizeBoard, hres, hb]
      | some bs =>
        cases hw : r.stonesW with
        | none => simp [GrBoard.applyOp, GrBoard.resizeBoard, hres, hb, hw]
        | some ws => simp [GrBoard.applyOp, GrBoard.resizeBoard, hres, hb, hw]

/-- Generalization of `applyOp_preserves_src` to arbitrary parameter keys
other than TRANSFORM: transform/resize operations touch no other key. -/
theorem applyOp_preserves_other_params (bd : GrBoard) (op : BoardOp) (k : String)
    (hk : k ≠ "TRANSFORM") : (bd.applyOp op).params k = bd.params k := by
  cases op with
  | transform rect warped =>
    cases rect with
    | none => rfl
    | some rc =>
      by_cases h : rc.length = 4
      · simp [GrBoard.applyOp, GrBoard.transformImage, h, Params.set, hk]
      · simp [GrBoard.applyOp, GrBoard.transformImage, h]
  | resize newImg scale =>
    cases hres : bd.res with
    | none => simp [GrBoard.applyOp, GrBoard.resizeBoard, hres]
    | some r =>
      cases hb : r.stonesB with
      | none => simp [GrBoard.applyOp, GrBoard.resizeBoard, hres, hb]
      | some bs =>
        cases hw : r.stonesW with
        | none => simp [GrBoard.applyOp, GrBoard.resizeBoard, hres, hb, hw]
        | some ws => simp [GrBoard.applyOp, GrBoard.resizeBoard, hres, hb, hw]

/-- Source image survives any sequence of transform/resize operations. -/
theorem applyOps_preserves_srcImg (bd : GrBoard) (ops : List BoardOp) :
    (bd.applyOps ops).srcImg = bd.srcImg := by
  induction ops generalizing bd with
  | nil => rfl
  | cons op ops ih =>
    calc (bd.applyOps (op :: ops)).srcImg
        = ((bd.applyOp op).applyOps ops).srcImg := rfl
      _ = (bd.applyOp op).srcImg := ih _
      _ = bd.srcImg := (applyOp_preserves_src bd op).1

/-- Claim C3: after any sequence of transform/resize operations,
`reset_image` makes the current image identical to the stored source
image, sets the TRANSFORM, BOARD_EDGES and BOARD_SIZE parameters to
absent, and leaves every other parameter unchanged. -/
theorem resetImage_restores_source (bd : GrBoard) (ops : List BoardOp) :
    ((bd.applyOps ops).resetImage).img = bd.srcImg ∧
    ((bd.applyOps ops).resetImage).srcImg = bd.srcImg ∧
    ((bd.applyOps ops).resetImage).params "TRANSFORM" = none ∧
    ((bd.applyOps ops).resetImage).params "BOARD_EDGES" = none ∧
    ((bd.applyOps ops).resetImage).params "BOARD_SIZE" = none ∧
    (∀ k, k ≠ "TRANSFORM" → k ≠ "BOARD_EDGES" → k ≠ "BOARD_SIZE" →
      ((bd.applyOps ops).resetImage).params k = (bd.applyOps ops).params k) := by
  have hsrc := applyOps_preserves_srcImg bd ops
  refine ⟨?_, ?_, ?_, ?_, ?_, ?_⟩
  · simpa [GrBoard.resetImage] using hsrc
  · simpa [GrBoard.resetImage] using hsrc
  · simp [GrBoard.resetImage, Params.set]
  · simp [GrBoard.resetImage, Params.set]
  · simp [GrBoard.resetImage, Params.set]
  · intro k h1 h2 h3
    simp [GrBoard.resetImage, Params.set, h1, h2, h3]

/-- Witness for C3: a concrete loaded session put through a transform and
a resize, then reset; the untouched AREA_MASK key is checked explicitly. -/
theorem resetImage_restores_source_witness :
    ((GrBoard.applyOps
        ⟨fun k => if k = "AREA_MASK" then some (.int 7) else none, none,
          some [[1]], none, some [[1]], none, false⟩
        [.transform (some [(0, 0), (0, 1), (1, 1), (1, 0)]) [[2]],
          .resize (some [[3]]) (2, 2)]).resetImage).img = some [[1]] ∧
    ((GrBoard.applyOps
        ⟨fun k => if k = "AREA_MASK" then some (.int 7) else none, none,
          some [[1]], none, some [[1]], none, false⟩
        [.transform (some [(0, 0), (0, 1), (1, 1), (1, 0)]) [[2]],
          .resize (some [[3]]) (2, 2)]).resetImage).params "AREA_MASK" =
      some (.int 7) := by
  constructor
  · exact (resetImage_restores_source _ _).1
  · have h := (resetImage_restores_source
      ⟨fun k => if k = "AREA_MASK" then some (.int 7) else none, none,
        some [[1]], none, some [[1]], none, false⟩
      [.transform (some [(0, 0), (0, 1), (1, 1), (1, 0)]) [[2]],
        .resize (some [[3]]) (2, 2)]).2.2.2.2.2 "AREA_MASK"
      (by decide) (by decide) (by decide)
    rw [h]
    rfl

/-- Move list written by `save_sgf` is the interleaving of the black and
white stones, each converted to a zero-based (row, column) pair. -/
theorem sgfMoves_eq_interleave (bs ws : List Stone) :
    sgfMoves bs ws =
      interleave (bs.map fun st => ('b', st.b - 1, st.a - 1))
        (ws.map fun st => ('w', st.b - 1, st.a - 1)) := by
  induction bs generalizing ws with
  | nil =>
    induction ws with
    | nil => simp [sgfMoves, interleave]
    | cons w ws ihw => simp [sgfMoves, interleave, subOneStone, ihw]
  | cons bst bs ih =>
    cases ws with
    | nil => simp [sgfMoves, interleave, subOneStone, ih]
    | cons w ws => simp [sgfMoves, interleave, subOneStone, ih]

/-- Claim C7: exporting to the move-record format fails with a descriptive
error when no result exists; with a result, black and white placements
alternate by index and each stone's one-based grid coordinates are written
zero-based. -/
theorem saveSgf_alternates_zero_based (bd : GrBoard) :
    (bd.res = none →
      bd.saveSgf = .error "Recognition results are not available") ∧
    (∀ r bs ws, bd.res = some r → r.stonesB = some bs → r.stonesW = some ws →
      bd.saveSgf = .ok (bd.boardSize,
        interleave (bs.map fun st => ('b', st.b - 1, st.a - 1))
          (ws.map fun st => ('w', st.b - 1, st.a - 1)))) := by
  constructor
  · intro h
    simp [GrBoard.saveSgf, h]
  · intro r bs ws hres hb hw
    simp [GrBoard.saveSgf, hres, hb, hw, sgfMoves_eq_interleave]

/-- Witness for C7: the empty-result error and a two-stones-a-color export
at a concrete session. -/
theorem saveSgf_alternates_zero_based_witness :
    GrBoard.saveSgf ⟨fun _ => none, none, none, none, none, none, true⟩ =
      .error "Recognition results are not available" ∧
    GrBoard.saveSgf
        ⟨fun _ => none,
          some ⟨some [⟨9, 9, 1, 1, 3⟩, ⟨9, 9, 2, 2, 3⟩],
            some [⟨9, 9, 3, 3, 3⟩], (1, 1), ((0, 0), (1, 1)), 19⟩,
          some [], none, some [], none, false⟩ =
      .ok (19, [('b', 0, 0), ('w', 2, 2), ('b', 1, 1)]) := by
  constructor
  · exact (saveSgf_alternates_zero_based _).1 rfl
  · have h := (saveSgf_alternates_zero_based
      ⟨fun _ => none,
        some ⟨some [⟨9, 9, 1, 1, 3⟩, ⟨9, 9, 2, 2, 3⟩],
          some [⟨9, 9, 3, 3, 3⟩], (1, 1), ((0, 0), (1, 1)), 19⟩,
        some [], none, some [], none, false⟩).2
      _ _ _ rfl rfl rfl
    rw [h]
    rfl

/-- Counterexample to C6 as stated: with a result present but empty and a
color filter 'B', nothing matches, yet `find_stone` returns the requested
color in the second field instead of leaving both fields absent. -/
theorem findStone_counterexample_color_echoed :
    GrBoard.findStone
        ⟨fun _ => none, some ⟨some [], some [], (1, 1), ((0, 0), (1, 1)), 19⟩,
          some [], none, some [], none, false⟩
        none (some (1, 1)) none (some 'B') = (none, some 'B') ∧
      (some 'B' : Option Char) ≠ none := by
  exact ⟨rfl, by decide⟩

/-- Label lookup resolves to the same grid lookup: the column letter is
converted with no skipped letters ('A' is column 1) and the row is taken
numerically. -/
theorem innerFind_label_A (n : ℤ) (l : List Stone) :
    innerFind none none (some ('A', n)) l = innerFind none (some (1, n)) none l := by
  have h : (('A'.toUpper.toNat : ℤ) - 65 + 1) = 1 := by decide
  simp [innerFind, h]

/-- Claim C6 (amended): `find_stone` returns both fields absent when no
result exists, and also when no color filter is given and nothing matches;
with a color filter it searches only that color's stones and echoes the
filter in the color field even on a miss; without a filter it searches
black stones first, then white; lookup by label "A1" equals lookup by grid
position (1, 1). -/
theorem findStone_search_order (bd : GrBoard) (c : Option (ℚ × ℚ))
    (p : Option (ℤ × ℤ)) (s : Option (Char × ℤ)) :
    (∀ bw, bd.res = none → bd.findStone c p s bw = (none, none)) ∧
    (∀ r, bd.res = some r →
      bd.findStone c p s (some 'B') =
        (innerFind c p s (r.stonesB.getD []), some 'B') ∧
      bd.findStone c p s (some 'W') =
        (innerFind c p s (r.stonesW.getD []), some 'W') ∧
      (innerFind c p s (r.stonesB.getD []) = none →
        innerFind c p s (r.stonesW.getD []) = none →
        bd.findStone c p s none = (none, none)) ∧
      (∀ st, innerFind c p s (r.stonesB.getD []) = some st →
        bd.findStone c p s none = (some st, some 'B')) ∧
      (∀ st, innerFind c p s (r.stonesB.getD []) = none →
        innerFind c p s (r.stonesW.getD []) = some st →
        bd.findStone c p s none = (some st, some 'W'))) ∧
    (∀ (n : ℤ) (bw : Option Char),
      bd.findStone none none (some ('A', n)) bw =
        bd.findStone none (some (1, n)) none bw) := by
  refine ⟨?_, ?_, ?_⟩
  · intro bw h
    simp [GrBoard.findStone, h]
  · intro r hres
    refine ⟨?_, ?_, ?_, ?_, ?_⟩
    · simp [GrBoard.findStone, hres]
    · simp [GrBoard.findStone, hres]
    · intro hB hW
      simp [GrBoard.findStone, hres, hB, hW]
    · intro st hB
      simp [GrBoard.findStone, hres, hB]
    · intro st hB hW
      simp [GrBoard.findStone, hres, hB, hW]
  · intro n bw
    cases hres : bd.res with
    | none => simp [GrBoard.findStone, hres]
    | some r =>
      cases bw with
      | none => simp [GrBoard.findStone, hres, innerFind_label_A]
      | some col => simp [GrBoard.findStone, hres, innerFind_label_A]

/-- Witness for C6 (amended) at a concrete session: the stone at grid
position (1, 1) is found by label "A1" and by grid position, with color
'B' reported. -/
theorem findStone_search_order_witness :
    GrBoard.findStone
        ⟨fun _ => none,
          some ⟨some [⟨40, 40, 1, 1, 9⟩], some [], (1, 1),
            ((0, 0), (1, 1)), 19⟩,
          some [], none, some [], none, false⟩
        none none (some ('A', 1)) none = (some ⟨40, 40, 1, 1, 9⟩, some 'B') ∧
    GrBoard.findStone
        ⟨fun _ => none,
          some ⟨some [⟨40, 40, 1, 1, 9⟩], some [], (1, 1),
            ((0, 0), (1, 1)), 19⟩,
          some [], none, some [], none, false⟩
        none (some (1, 1)) none none = (some ⟨40, 40, 1, 1, 9⟩, some 'B') := by
  constructor
  · have heq := (findStone_search_order
      ⟨fun _ => none,
        some ⟨some [⟨40, 40, 1, 1, 9⟩], some [], (1, 1),
          ((0, 0), (1, 1)), 19⟩,
        some [], none, some [], none, false⟩ none none (some ('A', 1))).2.2
      1 none
    rw [heq]
    exact ((findStone_search_order _ none (some (1, 1)) none).2.1
      _ rfl).2.2.2.1 ⟨40, 40, 1, 1, 9⟩ (by decide)
  · exact ((findStone_search_order _ none (some (1, 1)) none).2.1
      _ rfl).2.2.2.1 ⟨40, 40, 1, 1, 9⟩ (by decide)

/-- Claim C8: the exact hit test accepts a point iff it is collinear with
the endpoints and its dominant coordinate lies within their range; for any
tolerance of at least one, the windowed variant accepts iff some candidate
point of the window around the cursor passes the exact test, and in
particular every exactly-hit point is accepted by the windowed variant. -/
theorem is_on_hit_test (a b c : ℚ × ℚ) (delta : ℕ) (hd : 1 ≤ delta) :
    (is_on a b c = true ↔
      ((b.1 - a.1) * (c.2 - a.2) = (c.1 - a.1) * (b.2 - a.2) ∧
        (if a.1 ≠ b.1
          then (a.1 ≤ c.1 ∧ c.1 ≤ b.1) ∨ (b.1 ≤ c.1 ∧ c.1 ≤ a.1)
          else (a.2 ≤ c.2 ∧ c.2 ≤ b.2) ∨ (b.2 ≤ c.2 ∧ c.2 ≤ a.2)))) ∧
    (is_on_w a b c delta = true ↔
      ∃ q ∈ windowPoints c delta, is_on a b q = true) ∧
    (is_on a b c = true → is_on_w a b c delta = true) := by
  have hwiff : is_on_w a b c delta = true ↔
      ∃ q ∈ windowPoints c delta, is_on a b q = true := by
    constructor
    · intro h
      simp only [is_on_w, List.any_eq_true] at h
      obtain ⟨i, hi, h2⟩ := h
      obtain ⟨j, hj, hij⟩ := h2
      refine ⟨(c.1 + (i : ℚ) - 1, c.2 + (j : ℚ) - 1), ?_, hij⟩
      exact List.mem_flatMap.mpr ⟨i, hi, List.mem_map.mpr ⟨j, hj, rfl⟩⟩
    · intro h
      obtain ⟨q, hq, hon⟩ := h
      obtain ⟨i, hi, hq2⟩ := List.mem_flatMap.mp hq
      obtain ⟨j, hj, hqe⟩ := List.mem_map.mp hq2
      simp only [is_on_w, List.any_eq_true]
      exact ⟨i, hi, j, hj, by rw [hqe]; exact hon⟩
  refine ⟨?_, hwiff, ?_⟩
  · by_cases h : a.1 = b.1
    · simp [is_on, collinear, within, h]
    · simp [is_on, collinear, within, h]
  · intro h
    apply hwiff.mpr
    refine ⟨c, ?_, h⟩
    refine List.mem_flatMap.mpr ⟨1, List.mem_range.mpr (by omega),
      List.mem_map.mpr ⟨1, List.mem_range.mpr (by omega), ?_⟩⟩
    cases c
    norm_num

/-- Witness for C8 at a concrete segment, point and tolerance. -/
theorem is_on_hit_test_witness :
    is_on_w (0, 0) (4, 0) (2, 0) 1 = true ∧
    is_on_w (0, 0) (4, 0) (5, 1) 1 = true := by
  constructor
  · exact (is_on_hit_test (0, 0) (4, 0) (2, 0) 1 (by norm_num)).2.2
      (by norm_num [is_on, collinear, within, beq_iff_eq])
  · refine (is_on_hit_test (0, 0) (4, 0) (5, 1) 1 (by norm_num)).2.1.mpr
      ⟨(4, 0), ?_, by norm_num [is_on, collinear, within, beq_iff_eq]⟩
    refine List.mem_flatMap.mpr ⟨0, List.mem_range.mpr (by norm_num),
      List.mem_map.mpr ⟨0, List.mem_range.mpr (by norm_num), ?_⟩⟩
    norm_num

/-- Counterexample to C1 as stated: dragging the latched left edge of the
mask (10, 10, 100, 100) to x = 150 sets the left coordinate to 150, past
the right edge at 100; it is not stopped at right minus minDistance = 95
and the invariant left < right is broken. -/
theorem dragCallback_crosses_opposite_edge :
    ((ImageMask.dragCallback
        ⟨(200, 300), 5, 10, 10, 100, 100, true, some 0⟩ (150, 50)).mask0
      = 150) ∧
    ¬ ((ImageMask.dragCallback
        ⟨(200, 300), 5, 10, 10, 100, 100, true, some 0⟩ (150, 50)).mask0 ≤
      (ImageMask.dragCallback
        ⟨(200, 300), 5, 10, 10, 100, 100, true, some 0⟩ (150, 50)).mask2 - 5) ∧
    ¬ ((ImageMask.dragCallback
        ⟨(200, 300), 5, 10, 10, 100, 100, true, some 0⟩ (150, 50)).mask0 <
      (ImageMask.dragCallback
        ⟨(200, 300), 5, 10, 10, 100, 100, true, some 0⟩ (150, 50)).mask2) := by
  have h : ImageMask.dragCallback
      ⟨(200, 300), 5, 10, 10, 100, 100, true, some 0⟩ (150, 50) =
      ⟨(200, 300), 5, 150, 10, 100, 100, true, some 0⟩ := by
    simp [ImageMask.dragCallback, max_def]
    norm_num
  rw [h]
  norm_num

/-- Claim C1 (amended): each drag movement on a latched edge updates only
that edge's coordinate, clamped only against the image border — left/top
to at least minDistance, right/bottom to at most the image dimension minus
minDistance; the gap to the opposite edge is not enforced, so the left
edge can cross right minus minDistance. -/
theorem dragCallback_clamps_to_border_only (m : ImageMask) (p : ℚ × ℚ) :
    (m.dragSide = some 0 →
      (m.dragCallback p).mask0 = max p.1 m.minDist ∧
      m.minDist ≤ (m.dragCallback p).mask0 ∧
      (m.dragCallback p).mask1 = m.mask1 ∧
      (m.dragCallback p).mask2 = m.mask2 ∧
      (m.dragCallback p).mask3 = m.mask3) ∧
    (m.dragSide = some 1 →
      (m.dragCallback p).mask1 = max p.2 m.minDist ∧
      m.minDist ≤ (m.dragCallback p).mask1 ∧
      (m.dragCallback p).mask0 = m.mask0 ∧
      (m.dragCallback p).mask2 = m.mask2 ∧
      (m.dragCallback p).mask3 = m.mask3) ∧
    (m.dragSide = some 2 →
      (m.dragCallback p).mask2 = min p.1 (m.imageShape.2 - m.minDist) ∧
      (m.dragCallback p).mask2 ≤ m.imageShape.2 - m.minDist ∧
      (m.dragCallback p).mask0 = m.mask0 ∧
      (m.dragCallback p).mask1 = m.mask1 ∧
      (m.dragCallback p).mask3 = m.mask3) ∧
    (m.dragSide = some 3 →
      (m.dragCallback p).mask3 = min p.2 (m.imageShape.1 - m.minDist) ∧
      (m.dragCallback p).mask3 ≤ m.imageShape.1 - m.minDist ∧
      (m.dragCallback p).mask0 = m.mask0 ∧
      (m.dragCallback p).mask1 = m.mask1 ∧
      (m.dragCallback p).mask2 = m.mask2) := by
  refine ⟨fun h => ?_, fun h => ?_, fun h => ?_, fun h => ?_⟩ <;>
    simp [ImageMask.dragCallback, h, le_max_right, min_le_right]

/-- Witness for C1 (amended): dragging the latched right edge far past the
image border clamps it to width minus minDistance. -/
theorem dragCallback_clamps_to_border_only_witness :
    (ImageMask.dragCallback
        ⟨(200, 300), 5, 10, 10, 100, 100, true, some 2⟩ (400, 50)).mask2 =
      min (400 : ℚ) (300 - 5) ∧
    (ImageMask.dragCallback
        ⟨(200, 300), 5, 10, 10, 100, 100, true, some 2⟩ (400, 50)).mask2 ≤
      300 - 5 := by
  have h := (dragCallback_clamps_to_border_only
    ⟨(200, 300), 5, 10, 10, 100, 100, true, some 2⟩ (400, 50)).2.2.1 rfl
  exact ⟨h.1, h.2.1⟩

/-- Truncation toward zero agrees with the floor on nonnegative
rationals. -/
theorem pyInt_eq_floor (q : ℚ) (hq : 0 ≤ q) : pyInt q = ⌊q⌋ := by
  rw [pyInt, Int.tdiv_eq_ediv (Rat.num_nonneg.mpr hq) (Int.natCast_nonneg q.den),
    Rat.floor_def]

/-- Scaling a nonnegative integer coordinate by a positive factor and back
by its inverse, truncating each time, loses less than one plus the inverse
factor. -/
theorem pyInt_roundtrip (x : ℤ) (s : ℚ) (hx : 0 ≤ x) (hs : 0 < s) :
    0 ≤ x - pyInt ((pyInt ((x : ℚ) * s) : ℚ) * s⁻¹) ∧
    (x : ℚ) - (pyInt ((pyInt ((x : ℚ) * s) : ℚ) * s⁻¹) : ℚ) < 1 + s⁻¹ := by
  have hxq : (0 : ℚ) ≤ (x : ℚ) := by exact_mod_cast hx
  have hxs : 0 ≤ (x : ℚ) * s := mul_nonneg hxq hs.le
  have hsi : (0 : ℚ) < s⁻¹ := inv_pos.mpr hs
  have hx1nn : (0 : ℚ) ≤ (⌊(x : ℚ) * s⌋ : ℚ) := by
    exact_mod_cast Int.floor_nonneg.mpr hxs
  have h2 : pyInt ((pyInt ((x : ℚ) * s) : ℚ) * s⁻¹) =
      ⌊(⌊(x : ℚ) * s⌋ : ℚ) * s⁻¹⌋ := by
    rw [pyInt_eq_floor ((x : ℚ) * s) hxs]
    exact pyInt_eq_floor _ (mul_nonneg hx1nn hsi.le)
  rw [h2]
  have hub : (⌊(x : ℚ) * s⌋ : ℚ) * s⁻¹ ≤ (x : ℚ) := by
    have h3 : (⌊(x : ℚ) * s⌋ : ℚ) ≤ (x : ℚ) * s := Int.floor_le _
    calc (⌊(x : ℚ) * s⌋ : ℚ) * s⁻¹ ≤ ((x : ℚ) * s) * s⁻¹ :=
        mul_le_mul_of_nonneg_right h3 hsi.le
      _ = (x : ℚ) := by field_simp
  have hx2le : ⌊(⌊(x : ℚ) * s⌋ : ℚ) * s⁻¹⌋ ≤ x := by
    have h4 := Int.floor_le_floor (α := ℚ) hub
    simpa using h4
  refine ⟨by omega, ?_⟩
  have h5 : (x : ℚ) * s - 1 < (⌊(x : ℚ) * s⌋ : ℚ) := Int.sub_one_lt_floor _
  have h6 : ((x : ℚ) * s - 1) * s⁻¹ < (⌊(x : ℚ) * s⌋ : ℚ) * s⁻¹ :=
    mul_lt_mul_of_pos_right h5 hsi
  have h7 : ((x : ℚ) * s - 1) * s⁻¹ = (x : ℚ) - s⁻¹ := by
    field_simp
  have h8 : (⌊(x : ℚ) * s⌋ : ℚ) * s⁻¹ - 1 < (⌊(⌊(x : ℚ) * s⌋ : ℚ) * s⁻¹⌋ : ℚ) :=
    Int.sub_one_lt_floor _
  linarith

/-- Claim C4: with a result present, resize rescales every stone's pixel x
by sx, pixel y by sy and radius by max(sx, sy) (each truncated back to an
integer), scales spacing and edge rectangle by the same per-axis factors,
and leaves grid coordinates bit-identical; scaling by (sx, sy) then by
(1/sx, 1/sy) returns each pixel coordinate to within rounding tolerance of
its original value. -/
theorem resizeBoard_scales_and_roundtrips (bd : GrBoard) (newImg : Option Image)
    (sc : ℚ × ℚ) (r : GrResult) (bs ws : List Stone)
    (hres : bd.res = some r) (hb : r.stonesB = some bs)
    (hw : r.stonesW = some ws) :
    (∃ bd2, bd.resizeBoard newImg sc = some bd2 ∧ bd2.img = newImg ∧
      bd2.res = some
        { r with
          stonesB := some (bs.map fun st =>
            { x := pyInt ((st.x : ℚ) * sc.1), y := pyInt ((st.y : ℚ) * sc.2),
              a := st.a, b := st.b,
              r := pyInt ((st.r : ℚ) * max sc.1 sc.2) })
          stonesW := some (ws.map fun st =>
            { x := pyInt ((st.x : ℚ) * sc.1), y := pyInt ((st.y : ℚ) * sc.2),
              a := st.a, b := st.b,
              r := pyInt ((st.r : ℚ) * max sc.1 sc.2) })
          spacing := (r.spacing.1 * sc.1, r.spacing.2 * sc.2)
          edges := ((r.edges.1.1 * sc.1, r.edges.1.2 * sc.2),
                    (r.edges.2.1 * sc.1, r.edges.2.2 * sc.2)) }) ∧
    (∀ st : Stone, 0 ≤ st.x → 0 ≤ st.y → 0 < sc.1 → 0 < sc.2 →
      (resizeStone (sc.1⁻¹, sc.2⁻¹) (resizeStone sc st)).a = st.a ∧
      (resizeStone (sc.1⁻¹, sc.2⁻¹) (resizeStone sc st)).b = st.b ∧
      0 ≤ st.x - (resizeStone (sc.1⁻¹, sc.2⁻¹) (resizeStone sc st)).x ∧
      (st.x : ℚ) -
          ((resizeStone (sc.1⁻¹, sc.2⁻¹) (resizeStone sc st)).x : ℚ) <
        1 + sc.1⁻¹ ∧
      0 ≤ st.y - (resizeStone (sc.1⁻¹, sc.2⁻¹) (resizeStone sc st)).y ∧
      (st.y : ℚ) -
          ((resizeStone (sc.1⁻¹, sc.2⁻¹) (resizeStone sc st)).y : ℚ) <
        1 + sc.2⁻¹) := by
  constructor
  · have hcalc : bd.resizeBoard newImg sc = some
        { bd with
          img := newImg
          res := some
            { r with
              stonesB := some (bs.map fun st =>
                { x := pyInt ((st.x : ℚ) * sc.1),
                  y := pyInt ((st.y : ℚ) * sc.2),
                  a := st.a, b := st.b,
                  r := pyInt ((st.r : ℚ) * max sc.1 sc.2) })
              stonesW := some (ws.map fun st =>
                { x := pyInt ((st.x : ℚ) * sc.1),
                  y := pyInt ((st.y : ℚ) * sc.2),
                  a := st.a, b := st.b,
                  r := pyInt ((st.r : ℚ) * max sc.1 sc.2) })
              spacing := (r.spacing.1 * sc.1, r.spacing.2 * sc.2)
              edges := ((r.edges.1.1 * sc.1, r.edges.1.2 * sc.2),
                        (r.edges.2.1 * sc.1, r.edges.2.2 * sc.2)) } } := by
      simp only [GrBoard.resizeBoard, hres, hb, hw]
      rfl
    exact ⟨_, hcalc, rfl, rfl⟩
  · intro st hx hy hsx hsy
    have hrx := pyInt_roundtrip st.x sc.1 hx hsx
    have hry := pyInt_roundtrip st.y sc.2 hy hsy
    exact ⟨rfl, rfl, hrx.1, hrx.2, hry.1, hry.2⟩

/-- Witness for C4 at a concrete session, stone and scale pair (2, 3). -/
theorem resizeBoard_scales_and_roundtrips_witness :
    (GrBoard.resizeBoard
        ⟨fun _ => none,
          some ⟨some [⟨10, 20, 3, 4, 5⟩], some [], (1, 1), ((0, 0), (1, 1)),
            19⟩,
          some [], none, some [], none, false⟩
        none (2, 3)).isSome = true ∧
    (resizeStone ((2 : ℚ)⁻¹, (3 : ℚ)⁻¹)
        (resizeStone (2, 3) ⟨10, 20, 3, 4, 5⟩)).a = 3 ∧
    (resizeStone ((2 : ℚ)⁻¹, (3 : ℚ)⁻¹)
        (resizeStone (2, 3) ⟨10, 20, 3, 4, 5⟩)).b = 4 ∧
    0 ≤ 10 - (resizeStone ((2 : ℚ)⁻¹, (3 : ℚ)⁻¹)
        (resizeStone (2, 3) ⟨10, 20, 3, 4, 5⟩)).x ∧
    ((10 : ℤ) : ℚ) - ((resizeStone ((2 : ℚ)⁻¹, (3 : ℚ)⁻¹)
        (resizeStone (2, 3) ⟨10, 20, 3, 4, 5⟩)).x : ℚ) < 1 + (2 : ℚ)⁻¹ := by
  have h := resizeBoard_scales_and_roundtrips
    ⟨fun _ => none,
      some ⟨some [⟨10, 20, 3, 4, 5⟩], some [], (1, 1), ((0, 0), (1, 1)), 19⟩,
      some [], none, some [], none, false⟩
    none (2, 3) _ _ _ rfl rfl rfl
  obtain ⟨⟨bd2, h2, _, _⟩, hrt⟩ := h
  have hst := hrt ⟨10, 20, 3, 4, 5⟩ (by norm_num) (by norm_num)
    (by norm_num) (by norm_num)
  exact ⟨by rw [h2]; rfl, hst.1, hst.2.1, hst.2.2.1, hst.2.2.2.1⟩

end GrSpec
